import Mathlib

/-!
# Verification of the WPS version crawler core

A shallow embedding, in Lean 4, of the download / version-ledger core of
`wps_version_crawler.py`, together with proofs and refutations of the
specification's claims about it.

The embedding models machine integers as `Nat` (all the quantities involved
are non-negative byte counts and indices, and no Python-level overflow can
occur since Python integers are unbounded), fallible operations by explicit
outcome parameters, and the file system by explicit state values.
-/

namespace WPSCrawler

/-! ## The parallel downloader: chunk computation

`Downloader.__init__` stores `num_threads` and `chunk_size`.
`Downloader.download_file` computes the byte ranges (source lines 139-145):

    min_chunk_size = 1024 * 1024  # 1MB
    chunk_size = max(min_chunk_size, min(self.chunk_size, total_size // self.num_threads))
    chunks = []
    for start in range(0, total_size, chunk_size):
        end = min(start + chunk_size - 1, total_size - 1)
        chunks.append((start, end))
-/

/-- The `Downloader` object's configuration fields (`num_threads`, `chunk_size`). -/
structure Downloader where
  num_threads : Nat
  chunk_size : Nat
deriving DecidableEq, Repr

/-- The hard-coded `min_chunk_size = 1024 * 1024` of `download_file`. -/
def minChunkSize : Nat := 1024 * 1024

/-- The loop `for start in range(0, total_size, chunk_size): chunks.append((start, min(start + chunk_size - 1, total_size - 1)))`.
For a positive step, Python's `range(0, stop, step)` has `⌈stop / step⌉` elements,
the `i`-th being `i * step`. -/
def computeChunks (totalSize chunkSize : Nat) : List (Nat × Nat) :=
  (List.range ((totalSize + chunkSize - 1) / chunkSize)).map
    (fun i => (i * chunkSize, min (i * chunkSize + chunkSize - 1) (totalSize - 1)))

/-- `chunk_size = max(min_chunk_size, min(self.chunk_size, total_size // self.num_threads))`. -/
def Downloader.effectiveChunkSize (d : Downloader) (totalSize : Nat) : Nat :=
  max minChunkSize (min d.chunk_size (totalSize / d.num_threads))

/-- The list `chunks` computed by `Downloader.download_file` for a file of
`totalSize` bytes. -/
def Downloader.chunks (d : Downloader) (totalSize : Nat) : List (Nat × Nat) :=
  computeChunks totalSize (d.effectiveChunkSize totalSize)

/-- §4.1 RangeChunker as the spec words it, with `min_chunk_size` an explicit
parameter: effective chunk size is
`max(min_chunk_size, min(desired_chunk_size, total_size / max_parallelism))`,
then the same walk as the code. (`Downloader.chunks` instantiates
`min_chunk_size` with the code's constant `1024 * 1024`.) -/
def rangeChunker (totalSize desiredChunkSize maxParallelism minChunk : Nat) :
    List (Nat × Nat) :=
  computeChunks totalSize (max minChunk (min desiredChunkSize (totalSize / maxParallelism)))

/-! ## `Downloader._download_chunk`: the retry loop

Source lines 61-89:

    max_retries = 3
    retry_count = 0
    while retry_count < max_retries:
        try:
            response = self.session.get(url, headers=headers, stream=True, timeout=30)
            if response.status_code in (200, 206):
                ... write body ...
                return True
        except Exception as e:
            retry_count += 1
            ...
    return False
-/

/-- What one iteration of `_download_chunk`'s `while` loop observes: the
request either raises a transport exception (`error`), completes with a status
outside `{200, 206}` (`badStatus`), or completes with an accepted status and
the body is written successfully (`success`; an exception while writing is
caught by the same handler as `error`). -/
inductive ChunkAttempt where
  | success
  | badStatus
  | error
deriving DecidableEq, Repr

/-- The `while retry_count < max_retries` loop of `_download_chunk`, with
`max_retries = 3`, run against a finite supply of attempt outcomes. `some b`
means the function returned `b`; `none` means the loop consumed every offered
attempt and is still running (it would issue yet another request). Faithful to
the source: `retry_count` is incremented only inside the `except` handler, and
a non-`{200, 206}` status falls through the `if` without touching
`retry_count`. -/
def downloadChunkLoop (retryCount : Nat) : List ChunkAttempt → Option Bool
  | [] => if retryCount < 3 then none else some false
  | a :: rest =>
    if retryCount < 3 then
      match a with
      | .success => some true
      | .badStatus => downloadChunkLoop retryCount rest
      | .error => downloadChunkLoop (retryCount + 1) rest
    else some false

/-! ## `Downloader._download_chunk`: the write on an accepted response -/

/-- Python `open(path, 'rb+')`; `f.seek(offset)`; `f.write(data)` on a file
whose current contents are `file`: bytes `[offset, offset + data.length)` are
overwritten, the file grows if the write runs past its end, and a seek past
the end zero-fills the gap. The chunked `for chunk in response.iter_content`
loop amounts to one write of the concatenated body. -/
def writeAt (file : List Nat) (offset : Nat) (data : List Nat) : List Nat :=
  (file ++ List.replicate (offset - file.length) 0).take offset ++ data ++
    (file ++ List.replicate (offset - file.length) 0).drop (offset + data.length)

/-- The write performed by `_download_chunk` when the response status is 200 or
206: the whole response body is written at offset `start` — the code never
checks that the body length matches the requested range. -/
def downloadChunkWrite (file : List Nat) (start : Nat) (body : List Nat) :
    List Nat :=
  writeAt file start body

/-! ## `Downloader.download_file`: outcome and file-system effect -/

/-- Result of the HEAD probe in `download_file`: the request either raises, or
completes with a status code and a `content-length` (0 when the header is
missing). -/
inductive HeadResult where
  | raises
  | ok (status : Nat) (contentLength : Nat)
deriving DecidableEq, Repr

/-- What `download_file` leaves behind: its boolean return value, and whether a
file exists at `save_path` afterwards. -/
structure DownloadOutcome where
  success : Bool
  fileExists : Bool
deriving DecidableEq, Repr

/-- `Downloader._download_single`: on success the streamed file exists; on any
exception the handler removes the file and returns `False`. -/
def downloadSingle (ok : Bool) : DownloadOutcome :=
  if ok then ⟨true, true⟩ else ⟨false, false⟩

/-- Shallow embedding of `Downloader.download_file` (source lines 122-171).
The parameters model the environment: `head` the HEAD probe, `truncateOk`
whether pre-allocating the destination raises, `singleOk` whether the
single-stream fallback succeeds, `chunkResult i` the boolean returned by
`_download_chunk` for the `i`-th chunk (`_download_chunk` catches its own
exceptions and returns a boolean), and `existsBefore` whether a file already
sits at `save_path`. Faithful to the source: the `except` handler removes the
file, but the `return all(results)` path performs no cleanup. -/
def Downloader.download_file (d : Downloader) (head : HeadResult)
    (truncateOk singleOk : Bool) (chunkResult : Nat → Bool)
    (existsBefore : Bool) : DownloadOutcome :=
  match head with
  | .raises => ⟨false, false⟩
  | .ok status contentLength =>
    if status ≠ 200 then ⟨false, existsBefore⟩
    else if contentLength = 0 then downloadSingle singleOk
    else if truncateOk = false then ⟨false, false⟩
    else
      ⟨((List.range (d.chunks contentLength).length).map chunkResult).all id,
        true⟩

/-! ## The version ledger

`version_history` is a JSON object mapping a platform key (`"windows"` /
`"macos"`) to a list of version-record objects. The fields of a record that
`_update_history` and the update decisions read are `version`, `build_number`
and `update_time`; `download_url` stands in for the remaining payload fields.
-/

/-- A version record as stored in `version_history.json`. Optional fields model
keys that may be absent from the Python dict. -/
structure VersionRecord where
  version : String
  build_number : Option String
  download_url : Option String
  update_time : String
deriving DecidableEq, Repr

/-- The comparator underlying `sort(key=lambda x: x.get("update_time", ""), reverse=True)`:
record `a` may come before `b` when `a`'s `update_time` string is weakly the
later one. Python compares strings lexicographically by code point, modelled
here on `String.data`. -/
def recordLater (a b : VersionRecord) : Prop :=
  b.update_time.data ≤ a.update_time.data

instance : DecidableRel recordLater := fun a b =>
  inferInstanceAs (Decidable (b.update_time.data ≤ a.update_time.data))

instance : IsTotal VersionRecord recordLater :=
  ⟨fun a b => le_total b.update_time.data a.update_time.data⟩

instance : IsTrans VersionRecord recordLater :=
  ⟨fun _ _ _ h1 h2 => le_trans h2 h1⟩

/-- Python `record.update(version_info)`: fields present in `version_info`
overwrite, absent ones keep the old value (`version` and `update_time` are
always present in every `version_info` the crawler builds). -/
def mergeRecord (old new : VersionRecord) : VersionRecord :=
  { version := new.version
    build_number := new.build_number.orElse (fun _ => old.build_number)
    download_url := new.download_url.orElse (fun _ => old.download_url)
    update_time := new.update_time }

/-- The `for record in ...: if record.get("version") == version_info.get("version"): record.update(version_info); break / else: append`
of `_update_history` (source lines 349-356). The match key is `version` alone;
`build_number` is not consulted. -/
def upsertByVersion : List VersionRecord → VersionRecord → List VersionRecord
  | [], info => [info]
  | r :: rest, info =>
    if r.version = info.version then mergeRecord r info :: rest
    else r :: upsertByVersion rest info

/-- `self.version_history[platform_key].sort(key=..., reverse=True)`:
a stable sort placing later `update_time` strings first. -/
def sortByTimeDesc (l : List VersionRecord) : List VersionRecord :=
  List.insertionSort recordLater l

/-- The net effect of `_update_history` on one platform's record list. -/
def updateHistoryList (h : List VersionRecord) (info : VersionRecord) :
    List VersionRecord :=
  sortByTimeDesc (upsertByVersion h info)

/-- `version_history` as a JSON object: an insertion-ordered mapping from
platform key to record list, as a Python dict is. -/
abbrev Ledger := List (String × List VersionRecord)

/-- Dict lookup `d[key]` (as an option). -/
def lookupKey (key : String) : Ledger → Option (List VersionRecord)
  | [] => none
  | (k, v) :: rest => if k = key then some v else lookupKey key rest

/-- Dict assignment `d[key] = v`: replaces in place when the key exists,
appends at the end otherwise (Python dicts preserve insertion order). -/
def setKey (key : String) (v : List VersionRecord) : Ledger → Ledger
  | [] => [(key, v)]
  | (k, w) :: rest => if k = key then (k, v) :: rest else (k, w) :: setKey key v rest

/-- Python `platform.lower()`, for the ASCII platform names the crawler uses. -/
def lowerString (s : String) : String :=
  ⟨s.data.map Char.toLower⟩

/-- The contents of `version_history.json` on disk: absent, a well-formed
serialised ledger, or the debris of an interrupted write — truncated by
`open(..., 'w')` or partially written before `json.dump` raised. -/
inductive PersistedFile where
  | absent
  | corrupt
  | contents (l : Ledger)
deriving DecidableEq, Repr

/-- How one call to `_save_history` can go. `open(self.history_file, 'w')`
truncates the file the moment it opens, so the failure point matters:
`openFails` — `open` itself raised and the previous contents are untouched;
`dumpFails` — `open` succeeded (destroying the previous contents) and
`json.dump` then raised, leaving a truncated or partially written file. -/
inductive SaveOutcome where
  | ok
  | openFails
  | dumpFails
deriving DecidableEq, Repr

/-- The crawler's state as far as the ledger is concerned: the in-memory
`self.version_history` and the persisted `version_history.json`. -/
structure CrawlerState where
  version_history : Ledger
  history_file : PersistedFile
deriving DecidableEq, Repr

/-- The record list `_update_history` works on for a platform:
`self.version_history[platform.lower()]`, defaulting to `[]` when the key is
absent (the code inserts an empty list first). -/
def platformHistory (s : CrawlerState) (platform : String) : List VersionRecord :=
  (lookupKey (lowerString platform) s.version_history).getD []

/-- `_save_history` (source lines 334-340): `with open(self.history_file, 'w') as f: json.dump(...)`
inside a `try` whose `except` handler only logs and returns normally. On
success the persisted file is exactly the in-memory ledger; a failing `open`
leaves it untouched; a `json.dump` failure strikes after the `'w'` open has
already truncated it, leaving a non-well-formed file. -/
def save_history (s : CrawlerState) (outcome : SaveOutcome) : CrawlerState :=
  match outcome with
  | .ok => { s with history_file := .contents s.version_history }
  | .openFails => s
  | .dumpFails => { s with history_file := .corrupt }

/-- `_update_history` (source lines 342-364): ensure the platform key exists,
upsert by `version`, re-sort by `update_time` descending, persist. -/
def update_history (s : CrawlerState) (platform : String) (info : VersionRecord)
    (outcome : SaveOutcome) : CrawlerState :=
  save_history
    { s with
      version_history :=
        setKey (lowerString platform)
          (updateHistoryList (platformHistory s platform) info)
          s.version_history }
    outcome

/-- The ledger `_load_history` falls back to: `{"windows": [], "macos": []}`. -/
def emptyHistory : Ledger := [("windows", []), ("macos", [])]

/-- `_load_history` (source lines 322-332). `fileState` is `none` when
`version_history.json` does not exist, `some (.error e)` when opening or
parsing it raises, and `some (.ok j)` when `json.load` succeeds with contents
`j`. -/
def load_history (fileState : Option (Except String Ledger)) : Ledger :=
  match fileState with
  | none => emptyHistory
  | some (.ok j) => j
  | some (.error _) => emptyHistory

/-! ## The update decisions -/

/-- The fields of the local `*.yaml` version info that the skip checks read;
optional because the parsed YAML dict may lack either key. `none` at the outer
level models a missing, unreadable or empty file (Python's falsy `local_info`). -/
structure LocalInfo where
  version : Option String
  build_number : Option String
deriving DecidableEq, Repr

/-- The macOS skip condition (source line 689):
`local_info and local_info.get("version") == version and local_info.get("build_number") == build_number`. -/
def macosSkipCheck (li : Option LocalInfo) (version build_number : String) : Bool :=
  match li with
  | none => false
  | some l => l.version == some version && l.build_number == some build_number

/-- What `_get_macos_version` does after parsing a version, build number and
(possibly) capturing a download URL. -/
inductive MacOutcome where
  | skip
  | invokeDownload
  | noUrl
deriving DecidableEq, Repr

/-- The macOS flow after version parsing (source lines 689-745): if the skip
condition holds the local record is returned before any download machinery
runs; otherwise the downloader is invoked exactly when a download URL was
found. -/
def macosAfterParse (li : Option LocalInfo) (version build_number : String)
    (download_url : Option String) : MacOutcome :=
  if macosSkipCheck li version build_number then .skip
  else
    match download_url with
    | some _ => .invokeDownload
    | none => .noUrl

/-- How the backup-version branch of `_get_windows_version` ends. `download`
is the outcome the spec's decision rule predicts for a new version; the
embedding shows the code never produces it. -/
inductive WinOutcome where
  | errorRecord
  | skip
  | download
deriving DecidableEq, Repr

/-- The backup-version branch of `_get_windows_version` (source lines
496-544), entered when discovery yielded no version: `latest_version` is set
to `"21915"`; the plain URL and then the `X64` URL are verified. Faithful to
the source, including its references to the undefined names `url_64` and
`url_32`: when the plain URL verifies, the `elif self._verify_download_url(url_32)`
raises `NameError`, and when only the `X64` URL verifies and the local version
does not match, `self.downloader.download_file(url_64, save_path)` raises
`NameError`; both are caught by the function-level handler, which returns an
`"Unknown"`-version error record. No path reaches a download. -/
def windowsFallback (local_version : Option String)
    (verifyPlain verifyX64 : Bool) : WinOutcome :=
  if verifyPlain = false then
    if verifyX64 = false then .errorRecord
    else if local_version = some "21915" then .skip
    else .errorRecord
  else .errorRecord

/-! ## `_verify_download_url` -/

/-- `_verify_download_url` (source lines 810-816): the HEAD request either
raises (`Except.error`) or completes with a status code; the bare `except`
turns any exception into `False`. -/
def verify_download_url (resp : Except Unit Nat) : Bool :=
  match resp with
  | .error _ => false
  | .ok code => code == 200

/-! ## Sample data for witnesses and counterexamples -/

/-- A macOS ledger entry in the shape the crawler writes. -/
def sampleMacRecord : VersionRecord :=
  { version := "7.5.1", build_number := some "8994", download_url := none
    update_time := "2025-01-01 00:00:00" }

/-- A rediscovery of version `7.5.1` with a different build number: a new
version key in the spec's sense. -/
def sampleNewBuildRecord : VersionRecord :=
  { version := "7.5.1", build_number := some "9000", download_url := none
    update_time := "2025-01-02 00:00:00" }

/-- A discovery of a genuinely new version string. -/
def sampleNewVersionRecord : VersionRecord :=
  { version := "12.1.21861", build_number := some "0", download_url := none
    update_time := "2025-06-20 10:00:00" }

/-- A crawler state holding one macOS record, nothing persisted yet. -/
def sampleState : CrawlerState :=
  { version_history := [("windows", []), ("macos", [sampleMacRecord])]
    history_file := .absent }

/-! ## Chunk computation: partition lemmas (C1, C3) -/

lemma computeChunks_length (t c : Nat) :
    (computeChunks t c).length = (t + c - 1) / c := by
  simp [computeChunks]

lemma computeChunks_get (t c i : Nat) (hi : i < (computeChunks t c).length) :
    (computeChunks t c).get ⟨i, hi⟩ =
      (i * c, min (i * c + c - 1) (t - 1)) := by
  simp [computeChunks]

/-- `i` indexes a chunk exactly when its start `i * c` lies inside the file. -/
lemma lt_numChunks_iff {t c : Nat} (hc : 0 < c) (ht : 0 < t) (i : Nat) :
    i < (t + c - 1) / c ↔ i * c < t := by
  rw [Nat.lt_iff_add_one_le, Nat.le_div_iff_mul_le hc, Nat.add_one_mul]
  omega

/-- The chunk walk overshoots the file length by strictly less than one step. -/
lemma numChunks_mul_ge {t c : Nat} (hc : 0 < c) :
    t ≤ ((t + c - 1) / c) * c := by
  have h1 := Nat.div_add_mod (t + c - 1) c
  have h2 := Nat.mod_lt (t + c - 1) hc
  have h3 : ((t + c - 1) / c) * c = c * ((t + c - 1) / c) := Nat.mul_comm _ _
  omega

lemma effectiveChunkSize_ge (d : Downloader) (t : Nat) :
    minChunkSize ≤ d.effectiveChunkSize t :=
  le_max_left _ _

lemma effectiveChunkSize_pos (d : Downloader) (t : Nat) :
    0 < d.effectiveChunkSize t :=
  lt_of_lt_of_le (by decide) (effectiveChunkSize_ge d t)

/-- C1 master lemma: structural partition facts about the chunk walk,
for any positive step `c` and positive `t`. -/
lemma computeChunks_partition {t c : Nat} (ht : 0 < t) (hc : 0 < c) :
    0 < (computeChunks t c).length
    ∧ (∀ i, ∀ hi : i < (computeChunks t c).length,
        ((computeChunks t c).get ⟨i, hi⟩).1 = i * c)
    ∧ (∀ hi : 0 < (computeChunks t c).length,
        ((computeChunks t c).get ⟨0, hi⟩).1 = 0)
    ∧ (∀ i, ∀ hi : i < (computeChunks t c).length,
        ((computeChunks t c).get ⟨i, hi⟩).1 ≤ ((computeChunks t c).get ⟨i, hi⟩).2)
    ∧ (∀ i, ∀ hi : i + 1 < (computeChunks t c).length,
        ((computeChunks t c).get ⟨i + 1, hi⟩).1 =
          ((computeChunks t c).get ⟨i, Nat.lt_of_succ_lt hi⟩).2 + 1)
    ∧ (∀ i, ∀ hi : i < (computeChunks t c).length, i + 1 = (computeChunks t c).length →
        ((computeChunks t c).get ⟨i, hi⟩).2 = t - 1)
    ∧ (∀ i, ∀ hi : i + 1 < (computeChunks t c).length,
        ((computeChunks t c).get ⟨i, Nat.lt_of_succ_lt hi⟩).2 + 1 -
          ((computeChunks t c).get ⟨i, Nat.lt_of_succ_lt hi⟩).1 = c)
    ∧ (∀ b, b < t ↔ ∃ p ∈ computeChunks t c, p.1 ≤ b ∧ b ≤ p.2) := by
  have hlen := computeChunks_length t c
  have hpos : 0 < (t + c - 1) / c := (lt_numChunks_iff hc ht 0).mpr (by omega)
  have hstart : ∀ i, ∀ hi : i < (computeChunks t c).length, i * c < t := by
    intro i hi
    exact (lt_numChunks_iff hc ht i).mp (hlen ▸ hi)
  have hend : ∀ i, ∀ hi : i + 1 < (computeChunks t c).length,
      i * c + c - 1 ≤ t - 1 := by
    intro i hi
    have h3 : (i + 1) * c < t := hstart (i + 1) hi
    rw [Nat.add_one_mul] at h3
    omega
  refine ⟨by omega, ?_, ?_, ?_, ?_, ?_, ?_, ?_⟩
  · intro i hi; rw [computeChunks_get]
  · intro hi; rw [computeChunks_get]; simp
  · intro i hi
    rw [computeChunks_get]
    have h1 := hstart i hi
    show i * c ≤ min (i * c + c - 1) (t - 1)
    omega
  · intro i hi
    rw [computeChunks_get, computeChunks_get]
    have h1 := hend i hi
    show (i + 1) * c = min (i * c + c - 1) (t - 1) + 1
    rw [Nat.add_one_mul]
    omega
  · intro i hi hlast
    rw [computeChunks_get]
    have h1 : t ≤ ((t + c - 1) / c) * c := numChunks_mul_ge hc
    have h2 : i + 1 = (t + c - 1) / c := by omega
    have h3 : (i + 1) * c = ((t + c - 1) / c) * c := by rw [h2]
    rw [Nat.add_one_mul] at h3
    show min (i * c + c - 1) (t - 1) = t - 1
    omega
  · intro i hi
    rw [computeChunks_get]
    have h1 := hend i hi
    have h2 := hstart i (Nat.lt_of_succ_lt hi)
    show min (i * c + c - 1) (t - 1) + 1 - i * c = c
    omega
  · intro b
    constructor
    · intro hb
      have hb1 : b / c * c ≤ b := Nat.div_mul_le_self b c
      have hbi : b / c < (computeChunks t c).length := by
        rw [hlen, lt_numChunks_iff hc ht]
        omega
      refine ⟨(computeChunks t c).get ⟨b / c, hbi⟩, List.get_mem _ _ _, ?_⟩
      rw [computeChunks_get]
      have hdm := Nat.div_add_mod b c
      have hmod := Nat.mod_lt b hc
      have hcm : b / c * c = c * (b / c) := Nat.mul_comm _ _
      constructor
      · show b / c * c ≤ b
        omega
      · show b ≤ min (b / c * c + c - 1) (t - 1)
        omega
    · rintro ⟨p, hp, h1, h2⟩
      obtain ⟨i, hi⟩ := List.get_of_mem hp
      have h3 : p = (i.1 * c, min (i.1 * c + c - 1) (t - 1)) := by
        rw [← hi]; exact computeChunks_get t c i.1 i.2
      have hp2 : p.2 ≤ t - 1 := by
        rw [h3]
        show min (i.1 * c + c - 1) (t - 1) ≤ t - 1
        omega
      omega

/-- **C1.** For every `total_size > 0`, every desired `chunk_size` and every
positive `num_threads`, the list of `(start, end)` ranges computed by
`Downloader.download_file` partitions `[0, total_size)`: the list is non-empty,
the first range starts at 0, every range's start is at most its end, each
subsequent range starts exactly one byte after the previous one ends (so the
ranges are ordered, contiguous and non-overlapping), the last range ends at
`total_size - 1`, a byte is covered by some range exactly when it lies below
`total_size`, and every range except possibly the last has length at least
`min_chunk_size` (1 MiB). -/
theorem download_file_chunks_partition (d : Downloader) (totalSize : Nat)
    (ht : 0 < totalSize) (hth : 0 < d.num_threads) :
    0 < (d.chunks totalSize).length
    ∧ (∀ hi : 0 < (d.chunks totalSize).length,
        ((d.chunks totalSize).get ⟨0, hi⟩).1 = 0)
    ∧ (∀ i, ∀ hi : i < (d.chunks totalSize).length,
        ((d.chunks totalSize).get ⟨i, hi⟩).1 ≤ ((d.chunks totalSize).get ⟨i, hi⟩).2)
    ∧ (∀ i, ∀ hi : i + 1 < (d.chunks totalSize).length,
        ((d.chunks totalSize).get ⟨i + 1, hi⟩).1 =
          ((d.chunks totalSize).get ⟨i, Nat.lt_of_succ_lt hi⟩).2 + 1)
    ∧ (∀ i, ∀ hi : i < (d.chunks totalSize).length,
        i + 1 = (d.chunks totalSize).length →
        ((d.chunks totalSize).get ⟨i, hi⟩).2 = totalSize - 1)
    ∧ (∀ i, ∀ hi : i + 1 < (d.chunks totalSize).length,
        minChunkSize ≤ ((d.chunks totalSize).get ⟨i, Nat.lt_of_succ_lt hi⟩).2 + 1 -
          ((d.chunks totalSize).get ⟨i, Nat.lt_of_succ_lt hi⟩).1)
    ∧ (∀ b, b < totalSize ↔ ∃ p ∈ d.chunks totalSize, p.1 ≤ b ∧ b ≤ p.2) := by
  have hc := effectiveChunkSize_pos d totalSize
  obtain ⟨h1, _h2, h3, h4, h5, h6, h7, h8⟩ :=
    computeChunks_partition (t := totalSize) (c := d.effectiveChunkSize totalSize) ht hc
  refine ⟨h1, h3, h4, h5, h6, ?_, h8⟩
  intro i hi
  exact (effectiveChunkSize_ge d totalSize).trans_eq (h7 i hi).symm

/-- Witness for C1: the crawler's own downloader configuration (16 threads,
4 MiB desired chunk size) on a 3,000,000-byte file yields a non-empty range
list. -/
theorem download_file_chunks_partition_witness :
    0 < (Downloader.chunks ⟨16, 4194304⟩ 3000000).length :=
  (download_file_chunks_partition ⟨16, 4194304⟩ 3000000 (by decide) (by decide)).1

/-- **C3 counterexample.** On `total_size = 10,000,000`,
`desired chunk_size = 6,000,000`, `max_parallelism = 16`, the chunk computation
does not produce the two ranges `[0,5999999]`, `[6000000,9999999]` claimed:
neither under the spec's §4.1 formula with `min_chunk_size = 1,000,000`, nor
under the code's `download_file` (whose `min_chunk_size` is `1024 * 1024`). -/
theorem chunk_scenario_not_two_ranges :
    rangeChunker 10000000 6000000 16 1000000 ≠ [(0, 5999999), (6000000, 9999999)]
    ∧ Downloader.chunks ⟨16, 6000000⟩ 10000000 ≠
        [(0, 5999999), (6000000, 9999999)] := by
  constructor <;> decide

/-- **C3 amended.** On `total_size = 10,000,000`, `desired chunk_size = 6,000,000`,
`max_parallelism = 16`, the effective chunk size clamps up to the minimum
(`10000000 / 16 = 625000` is below the floor), so the computation produces 10
ranges, not 2: with `min_chunk_size = 1,000,000` as the scenario states, the ten
ranges `[k*10^6, k*10^6 + 999999]` for `k = 0..9`; with the code's actual
constant `1 MiB = 1,048,576`, nine ranges of length 1,048,576 followed by
`[9437184, 9999999]`. -/
theorem chunk_scenario_ten_ranges :
    rangeChunker 10000000 6000000 16 1000000 =
      [(0, 999999), (1000000, 1999999), (2000000, 2999999), (3000000, 3999999),
       (4000000, 4999999), (5000000, 5999999), (6000000, 6999999),
       (7000000, 7999999), (8000000, 8999999), (9000000, 9999999)]
    ∧ Downloader.chunks ⟨16, 6000000⟩ 10000000 =
      [(0, 1048575), (1048576, 2097151), (2097152, 3145727), (3145728, 4194303),
       (4194304, 5242879), (5242880, 6291455), (6291456, 7340031),
       (7340032, 8388607), (8388608, 9437183), (9437184, 9999999)] := by
  constructor <;> decide

/-! ## The retry loop (C4) -/

/-- **C4** (refuted — the code is the slip). If every attempt completes with a
status other than 200/206 and no transport error, `_download_chunk` never
returns: however many attempts `n` the server is willing to serve, the loop is
still running (`retry_count` is never incremented on that path), contradicting
the claimed bound of 3 attempts. The retry bound does hold on the
transport-error path: three consecutive exceptions produce `False`. -/
theorem download_chunk_unbounded_on_bad_status :
    (∀ n, downloadChunkLoop 0 (List.replicate n ChunkAttempt.badStatus) = none)
    ∧ downloadChunkLoop 0 [ChunkAttempt.error, ChunkAttempt.error, ChunkAttempt.error]
        = some false := by
  constructor
  · intro n
    induction n with
    | zero => rfl
    | succ k ih =>
      rw [List.replicate_succ]
      simpa [downloadChunkLoop] using ih
  · rfl

/-! ## The chunk write (C8) -/

/-- **C8 counterexample.** A status-200 response carrying the full resource is
accepted by `_download_chunk`, but for the requested range `[2, 3]` of a 4-byte
pre-allocated file the write places the entire 4-byte body at offset 2, growing
the file from 4 to 6 bytes: the destination is resized, and the bytes written
are not those of the requested range — refuting the claim for the accepted
status-200 case. -/
theorem download_chunk_write_resizes_on_full_response :
    (downloadChunkWrite [0, 0, 0, 0] 2 [10, 11, 12, 13]).length ≠
      ([0, 0, 0, 0] : List Nat).length
    ∧ downloadChunkWrite [0, 0, 0, 0] 2 [10, 11, 12, 13] =
      [0, 0, 10, 11, 12, 13] := by
  constructor <;> decide

/-- **C8 amended.** When the response body is exactly the requested slice
`[s, e]` of the remote resource (the partial-content case the `Range` header
asks for), `_download_chunk`'s write puts exactly those bytes at offset `s`,
leaves every byte outside `[s, e]` unchanged, and does not truncate or resize
the destination. (With a 200 full-content body the code instead writes the
whole body at offset `s` and can grow the file, as the counterexample shows.) -/
theorem download_chunk_write_exact_on_range_body
    (file resource : List Nat) (s e : Nat)
    (h1 : e < file.length) (h2 : s ≤ e) (h3 : e + 1 ≤ resource.length) :
    downloadChunkWrite file s ((resource.drop s).take (e + 1 - s)) =
      file.take s ++ (resource.drop s).take (e + 1 - s) ++ file.drop (e + 1)
    ∧ (downloadChunkWrite file s ((resource.drop s).take (e + 1 - s))).length
        = file.length := by
  have hs : s ≤ file.length := by omega
  have hb : ((resource.drop s).take (e + 1 - s)).length = e + 1 - s := by
    rw [List.length_take, List.length_drop]
    omega
  have hkey : downloadChunkWrite file s ((resource.drop s).take (e + 1 - s)) =
      file.take s ++ (resource.drop s).take (e + 1 - s) ++ file.drop (e + 1) := by
    unfold downloadChunkWrite writeAt
    rw [Nat.sub_eq_zero_of_le hs]
    simp only [List.replicate_zero, List.append_nil]
    rw [hb]
    have harg : s + (e + 1 - s) = e + 1 := by omega
    rw [harg]
  refine ⟨hkey, ?_⟩
  rw [hkey]
  simp only [List.length_append, List.length_take, List.length_drop]
  omega

/-- Witness for C8 amended: range `[2, 3]` of the resource `[10, 11, 12, 13]`
written into a 4-byte file. -/
theorem download_chunk_write_exact_on_range_body_witness :
    downloadChunkWrite [0, 0, 0, 0] 2
        ((([10, 11, 12, 13] : List Nat).drop 2).take (3 + 1 - 2)) =
      ([0, 0, 0, 0] : List Nat).take 2 ++
        (([10, 11, 12, 13] : List Nat).drop 2).take (3 + 1 - 2) ++
        ([0, 0, 0, 0] : List Nat).drop (3 + 1)
    ∧ (downloadChunkWrite [0, 0, 0, 0] 2
        ((([10, 11, 12, 13] : List Nat).drop 2).take (3 + 1 - 2))).length =
      ([0, 0, 0, 0] : List Nat).length :=
  download_chunk_write_exact_on_range_body [0, 0, 0, 0] [10, 11, 12, 13] 2 3
    (by decide) (by decide) (by decide)

/-! ## `download_file` failure handling (C2) -/

/-- **C2** (refuted — the code is the slip). With the crawler's downloader
configuration, a 10,000,000-byte file, a successful probe and pre-allocation,
and the first of the ten chunk fetches returning `False` after exhausting its
retries, `download_file` returns `False` from `return all(results)` — a path
with no cleanup — so the pre-allocated destination file still exists,
contradicting the claim that no partial artifact survives a reported failure. -/
theorem download_file_keeps_file_on_chunk_failure :
    Downloader.download_file ⟨16, 4194304⟩ (.ok 200 10000000) true true
      (fun i => decide (i ≠ 0)) false =
      { success := false, fileExists := true } := by
  decide

/-! ## Ledger lemmas (C6, C7, C10) -/

/-- When no existing record carries the new record's `version`, the for-else
appends exactly the new record at the end. -/
lemma upsertByVersion_of_not_mem (h : List VersionRecord) (info : VersionRecord)
    (hn : ∀ r ∈ h, r.version ≠ info.version) :
    upsertByVersion h info = h ++ [info] := by
  induction h with
  | nil => rfl
  | cons r rest ih =>
    simp only [upsertByVersion]
    rw [if_neg (hn r (List.mem_cons_self r rest))]
    rw [ih (fun x hx => hn x (List.mem_cons_of_mem r hx))]
    rfl

/-- When some existing record carries the new record's `version`, the for-else
updates the first such record in place and the list keeps its length. -/
lemma upsertByVersion_length_of_mem {h : List VersionRecord} {info : VersionRecord}
    (hm : ∃ r ∈ h, r.version = info.version) :
    (upsertByVersion h info).length = h.length := by
  induction h with
  | nil => simp at hm
  | cons r rest ih =>
    simp only [upsertByVersion]
    by_cases hr : r.version = info.version
    · rw [if_pos hr]
      simp
    · rw [if_neg hr]
      simp only [List.length_cons]
      obtain ⟨x, hx, hv⟩ := hm
      rcases List.mem_cons.mp hx with h1 | h1
      · exact absurd (h1 ▸ hv) hr
      · rw [ih ⟨x, h1, hv⟩]

/-- The in-place update leaves the number of records carrying the matched
`version` unchanged. -/
lemma upsertByVersion_countP_of_mem {h : List VersionRecord} {info : VersionRecord}
    (hm : ∃ r ∈ h, r.version = info.version) :
    (upsertByVersion h info).countP (fun r => r.version == info.version) =
      h.countP (fun r => r.version == info.version) := by
  induction h with
  | nil => simp at hm
  | cons r rest ih =>
    simp only [upsertByVersion]
    by_cases hr : r.version = info.version
    · rw [if_pos hr]
      rw [List.countP_cons, List.countP_cons]
      simp [mergeRecord, hr]
    · rw [if_neg hr]
      rw [List.countP_cons, List.countP_cons]
      obtain ⟨x, hx, hv⟩ := hm
      rcases List.mem_cons.mp hx with h1 | h1
      · exact absurd (h1 ▸ hv) hr
      · rw [ih ⟨x, h1, hv⟩]

lemma sortByTimeDesc_perm (l : List VersionRecord) : (sortByTimeDesc l).Perm l :=
  List.perm_insertionSort recordLater l

lemma sortByTimeDesc_sorted (l : List VersionRecord) :
    List.Sorted recordLater (sortByTimeDesc l) :=
  List.sorted_insertionSort recordLater l

/-- Dict assignment followed by lookup of the same key yields the new value. -/
lemma lookupKey_setKey (key : String) (v : List VersionRecord) (l : Ledger) :
    lookupKey key (setKey key v l) = some v := by
  induction l with
  | nil => simp [setKey, lookupKey]
  | cons p rest ih =>
    obtain ⟨k, w⟩ := p
    simp only [setKey]
    by_cases hk : k = key
    · rw [if_pos hk]
      simp [lookupKey, hk]
    · rw [if_neg hk]
      simp [lookupKey, hk, ih]

/-- **C6 counterexample.** The ledger holds macOS version `7.5.1` build `8994`;
a record for version `7.5.1` build `9000` — a new version key, since the key is
`(platform, version, build_number?)` — is upserted. The claim requires an
append (2 entries); the code matches on `version` alone and updates in place,
leaving a single entry. -/
theorem upsert_ignores_build_number :
    (updateHistoryList [sampleMacRecord] sampleNewBuildRecord).length = 1
    ∧ sampleMacRecord.version = sampleNewBuildRecord.version
    ∧ sampleMacRecord.build_number ≠ sampleNewBuildRecord.build_number := by
  refine ⟨by decide, rfl, by decide⟩

/-- **C6 amended.** `_update_history` is key-stable for the key the code
actually uses — `version` alone, with `build_number` not consulted (see the
counterexample): upserting a record whose `version` matches no existing entry
appends exactly that one record (up to the re-sort's reordering); upserting
with an existing `version` keeps the platform list's length and its number of
entries carrying that `version` unchanged (the first match is updated in
place); afterwards the platform's sequence is sorted by `update_time`
descending, and the whole ledger is persisted synchronously: after a
successful flush the persisted file holds exactly the new in-memory ledger. -/
theorem update_history_key_stable (s : CrawlerState) (platform : String)
    (info : VersionRecord) :
    lookupKey (lowerString platform)
        (update_history s platform info .ok).version_history =
      some (updateHistoryList (platformHistory s platform) info)
    ∧ ((∀ r ∈ platformHistory s platform, r.version ≠ info.version) →
        (updateHistoryList (platformHistory s platform) info).Perm
          (platformHistory s platform ++ [info]))
    ∧ ((∃ r ∈ platformHistory s platform, r.version = info.version) →
        (updateHistoryList (platformHistory s platform) info).length =
            (platformHistory s platform).length
          ∧ (updateHistoryList (platformHistory s platform) info).countP
                (fun r => r.version == info.version) =
              (platformHistory s platform).countP
                (fun r => r.version == info.version))
    ∧ List.Sorted recordLater (updateHistoryList (platformHistory s platform) info)
    ∧ (update_history s platform info .ok).history_file =
        PersistedFile.contents (update_history s platform info .ok).version_history := by
  refine ⟨?_, ?_, ?_, sortByTimeDesc_sorted _, ?_⟩
  · simp only [update_history, save_history]
    exact lookupKey_setKey _ _ _
  · intro hn
    have h2 : updateHistoryList (platformHistory s platform) info =
        sortByTimeDesc (platformHistory s platform ++ [info]) := by
      rw [updateHistoryList, upsertByVersion_of_not_mem _ _ hn]
    rw [h2]
    exact sortByTimeDesc_perm _
  · intro hm
    have h1 := sortByTimeDesc_perm (upsertByVersion (platformHistory s platform) info)
    exact ⟨h1.length_eq.trans (upsertByVersion_length_of_mem hm),
      (h1.countP_eq _).trans (upsertByVersion_countP_of_mem hm)⟩
  · simp [update_history, save_history]

/-- Witness for C6 amended: upserting a record with the fresh version
`12.1.21861` into a ledger holding only `7.5.1` appends exactly that record. -/
theorem update_history_key_stable_witness :
    (updateHistoryList (platformHistory sampleState "macOS")
        sampleNewVersionRecord).Perm
      (platformHistory sampleState "macOS" ++ [sampleNewVersionRecord]) :=
  (update_history_key_stable sampleState "macOS" sampleNewVersionRecord).2.1
    (by decide)

/-- **C7.** Loading the ledger never raises: for every state of the persisted
history file — absent, unreadable or unparsable, or successfully parsed —
`_load_history` leaves the crawler with a well-defined ledger (the parsed
contents, or else the empty ledger), and on any read or parse error that
ledger is the empty one; likewise when the file is absent. -/
theorem load_history_total_and_empty_on_error :
    (∀ fs, load_history fs = emptyHistory
        ∨ ∃ j, fs = some (Except.ok j) ∧ load_history fs = j)
    ∧ (∀ e, load_history (some (Except.error e)) = emptyHistory)
    ∧ load_history none = emptyHistory := by
  refine ⟨?_, fun e => rfl, rfl⟩
  intro fs
  match fs with
  | none => exact Or.inl rfl
  | some (.ok j) => exact Or.inr ⟨j, rfl, rfl⟩
  | some (.error e) => exact Or.inl rfl

/-- **C10.** Persisting the ledger never propagates failure: `_save_history`
swallows every write or serialisation error (only logging it) and returns
normally, so `_update_history` performs exactly the same in-memory mutation
whichever way the flush goes. The effect on the persisted file depends on the
failure point: a failing `open` leaves the previous contents untouched, while
a `json.dump` failure strikes after `open(..., 'w')` has already truncated the
file, so the previous contents are destroyed — but neither failure is raised
to the caller. -/
theorem update_history_mutates_despite_save_failure
    (s : CrawlerState) (platform : String) (info : VersionRecord) :
    (∀ o, (update_history s platform info o).version_history =
      (update_history s platform info .ok).version_history)
    ∧ (update_history s platform info .openFails).history_file = s.history_file
    ∧ (update_history s platform info .dumpFails).history_file =
        PersistedFile.corrupt := by
  refine ⟨?_, ?_, ?_⟩
  · intro o
    cases o <;> simp [update_history, save_history]
  · simp [update_history, save_history]
  · simp [update_history, save_history]

/-! ## The update decisions (C5) -/

/-- **C5** (refuted for Windows — the code is the slip; spec §9 itself flags
the branch as a latent bug). For macOS the rule holds: the flow after version
parsing returns `skip` (reusing the local record, before any download
machinery runs) exactly when a local record exists whose `version` and
`build_number` both equal the discovered values. For Windows it fails: the
backup-version branch — the only place the version comparison exists — can
never reach a download, because the download call and the second URL test
reference the undefined names `url_64` / `url_32` and the resulting
`NameError` is caught into an `"Unknown"`-version error record. In particular,
with no local record and a verified backup URL, where the claim mandates
proceeding to download, the code produces an error record. -/
theorem update_decision_divergence :
    (∀ li v b u, macosAfterParse li v b u = MacOutcome.skip ↔
        ∃ l, li = some l ∧ l.version = some v ∧ l.build_number = some b)
    ∧ (∀ lv p x, windowsFallback lv p x ≠ WinOutcome.download)
    ∧ windowsFallback none false true = WinOutcome.errorRecord := by
  refine ⟨?_, ?_, rfl⟩
  · intro li v b u
    cases li with
    | none =>
      cases u <;> simp [macosAfterParse, macosSkipCheck]
    | some l =>
      by_cases hc : l.version = some v ∧ l.build_number = some b
      · obtain ⟨hv, hb⟩ := hc
        simp [macosAfterParse, macosSkipCheck, hv, hb]
      · have hfalse : macosSkipCheck (some l) v b = false := by
          simp only [macosSkipCheck, Bool.and_eq_false_iff]
          rcases not_and_or.mp hc with h | h
          · exact Or.inl (by simpa using h)
          · exact Or.inr (by simpa using h)
        cases u <;> simp [macosAfterParse, hfalse, hc]
  · intro lv p x
    simp only [windowsFallback]
    by_cases hp : p = false
    · by_cases hx : x = false
      · simp [hp, hx]
      · by_cases hl : lv = some "21915" <;> simp [hp, hx, hl]
    · simp [hp]

/-! ## `_verify_download_url` (C9) -/

/-- **C9.** `_verify_download_url` is total — the bare `except` turns any
raised exception into `False` — and it returns `True` exactly when the HEAD
request completes with status code 200: any transport error or non-200 status
yields `False`. -/
theorem verify_download_url_true_iff :
    ∀ resp : Except Unit Nat,
      verify_download_url resp = true ↔ resp = Except.ok 200 := by
  intro resp
  match resp with
  | .error e => simp [verify_download_url]
  | .ok c => simp [verify_download_url]

end WPSCrawler
